import Mathlib

/-
Verification of the "The Foreign Desk" backend (src/main.py): a single-file
FastAPI service over one document collection ("post").  The embedding below
translates the normalizer, the search-query builder and the five HTTP
handlers into Lean.  Python dicts are modelled as insertion-ordered
association lists with distinct keys; BSON values are modelled by the
inductive type Value.  External collaborators (the MongoDB driver in
database.py, which is not part of src/, and the bson ObjectId validator)
are modelled from their documented contracts where noted.
-/

set_option autoImplicit false

namespace TFD

/-- A BSON-ish value as it appears in stored documents and API responses.
vObjectId carries the 24-character hexadecimal form of the identifier;
vDateTime carries the ISO-8601 rendering of the timestamp (the payload a
Python datetime would produce via isoformat). -/
inductive Value where
| vStr : String → Value
| vInt : Int → Value
| vObjectId : String → Value
| vDateTime : String → Value
| vList : List Value → Value
| vDoc : List (String × Value) → Value
| vNull : Value

/-- A Python dict, in insertion order. -/
abbrev Doc := List (String × Value)

/-- Dict lookup: the value stored under key k, if any (first occurrence). -/
def getVal : Doc → String → Option Value
| [], _ => none
| p :: rest, k => if p.1 = k then some p.2 else getVal rest k

/-- Python d.get(k, dflt). -/
def getD (d : Doc) (k : String) (dflt : Value) : Value :=
  (getVal d k).getD dflt

/-- Number of entries under key k (a well-formed dict has at most one). -/
def countKey (k : String) : Doc → Nat
| [] => 0
| p :: rest => (if p.1 = k then 1 else 0) + countKey k rest

/-- Python dicts never hold a key twice. -/
abbrev NodupKeys (d : Doc) : Prop := (d.map Prod.fst).Nodup

/-- Python d.pop(k), the removal part: drops the first entry under k. -/
def eraseKey (k : String) : Doc → Doc
| [] => []
| p :: rest => if p.1 = k then rest else p :: eraseKey k rest

/-- Python d[k] = v: overwrite in place if k is present, else append. -/
def setKey (k : String) (v : Value) : Doc → Doc
| [] => [(k, v)]
| p :: rest => if p.1 = k then (k, v) :: rest else p :: setKey k v rest

/-- Python str(x) for the values the normalizer stringifies.  Only the
ObjectId case is exercised by the code (the "_id" value); str(ObjectId)
is its 24-character hexadecimal form.  The remaining cases are
placeholders and no theorem relies on them. -/
def pyStr : Value → String
| Value.vStr s => s
| Value.vInt n => toString n
| Value.vObjectId h => h
| Value.vDateTime iso => iso
| Value.vList _ => ""
| Value.vDoc _ => ""
| Value.vNull => "None"

/-- The body of the normalizer's datetime loop: isinstance(v, datetime)
values are replaced by v.isoformat(); everything else passes through.
The check is a top-level isinstance test, so it never looks inside
lists or sub-documents. -/
def convDT : Value → Value
| Value.vDateTime iso => Value.vStr iso
| v => v

/-- src/main.py _normalize (lines 47-57): on a falsy (empty) dict return
it as-is; otherwise copy, rename "_id" to "id" holding str of the popped
value, then convert top-level datetime values to their isoformat. -/
def normalize (doc : Doc) : Doc :=
  if doc.isEmpty then doc
  else
    let d1 : Doc :=
      match getVal doc "_id" with
      | some v => setKey "id" (Value.vStr (pyStr v)) (eraseKey "_id" doc)
      | none => doc
    d1.map (fun p => (p.1, convDT p.2))

/-! ## Case-insensitive substring matching -/

/-- Does the character list needle occur contiguously inside hay? -/
def occursIn (needle : List Char) : List Char → Bool
| [] => needle.isEmpty
| c :: rest => needle.isPrefixOf (c :: rest) || occursIn needle rest

/-- Case-insensitive substring test: does hay contain pat, ignoring case? -/
def containsCI (hay pat : String) : Bool :=
  occursIn (pat.toList.map Char.toLower) (hay.toList.map Char.toLower)

/-! ## Query builder (src/main.py lines 62-72) -/

/-- A MongoDB regex condition: the dict with keys regex and options
built on line 66. -/
structure RegexCond where
  pattern : String
  options : String

/-- The filter dict passed to find: either the empty match-all dict or
the or-of-field-regexes dict built on lines 67-72. -/
inductive QueryFilter where
| all : QueryFilter
| orRegex : List (String × RegexCond) → QueryFilter

/-- The searchable fields, in the order the code lists them. -/
def searchFields : List String := ["title", "region", "excerpt", "tags"]

/-- src/main.py lines 62-72: filter_dict starts empty; a truthy q (present
and non-empty) replaces it with an or of one case-insensitive regex
condition per searchable field, the pattern being q verbatim. -/
def build_filter (q : Option String) : QueryFilter :=
  match q with
  | none => QueryFilter.all
  | some s =>
      if s = "" then QueryFilter.all
      else QueryFilter.orRegex (searchFields.map (fun f => (f, RegexCond.mk s "i")))

/-- Modelled from the spec: MongoDB evaluation of a regex condition against
one field value, for metacharacter-free patterns (the spec documents the
intended semantics as unanchored substring matching, case-insensitive when
the i option is set; on an array field the condition holds when some
string element matches).  The MongoDB server is an external collaborator,
not part of this repository. -/
def regexCondMatches (rc : RegexCond) (v : Value) : Bool :=
  let strMatch : String → Bool := fun s =>
    if rc.options.toList.contains 'i' then containsCI s rc.pattern
    else occursIn rc.pattern.toList s.toList
  match v with
  | Value.vStr s => strMatch s
  | Value.vList l =>
      l.any (fun e => match e with | Value.vStr s => strMatch s | _ => false)
  | _ => false

/-- Modelled from the spec: MongoDB evaluation of the whole filter against
a document.  The empty filter matches everything; the or-filter matches
when at least one field condition matches the value stored under that
field (a missing field never matches a regex condition). -/
def evalFilter (f : QueryFilter) (d : Doc) : Bool :=
  match f with
  | QueryFilter.all => true
  | QueryFilter.orRegex conds =>
      conds.any (fun c => match getVal d c.1 with
        | some v => regexCondMatches c.2 v
        | none => false)

/-- The spec's search predicate, written from its words (section 4.2): at
least one of the four searchable fields contains q as a case-insensitive
substring; for the array-valued tags field, some string element does. -/
def fieldContainsCI (d : Doc) (fld q : String) : Bool :=
  match getVal d fld with
  | some (Value.vStr s) => containsCI s q
  | some (Value.vList l) =>
      l.any (fun e => match e with | Value.vStr s => containsCI s q | _ => false)
  | _ => false

/-- Spec-side query semantics for a non-empty q. -/
def specSearchMatches (q : String) (d : Doc) : Bool :=
  fieldContainsCI d "title" q || fieldContainsCI d "region" q ||
  fieldContainsCI d "excerpt" q || fieldContainsCI d "tags" q

/-! ## The list endpoint's projection (src/main.py lines 74-87) -/

/-- Python None injected into a JSON value. -/
def optValue : Option Value → Value
| some v => v
| none => Value.vNull

/-- The dict literal built for each document on lines 79-86: project the
normalized document into the Post shape, defaulting missing fields. -/
def projectPost (nd : Doc) : Doc :=
  [("title", getD nd "title" (Value.vStr "")),
   ("region", getD nd "region" (Value.vStr "")),
   ("excerpt", getD nd "excerpt" (Value.vStr "")),
   ("date", optValue (getVal nd "date")),
   ("tags", getD nd "tags" (Value.vList [])),
   ("content", getD nd "content" (Value.vList []))]

/-- The accumulator loop on lines 75-86: normalized starts empty and each
document's projection is appended in order. -/
def listPostsLoop : List Doc → List Doc → List Doc
| acc, [] => acc
| acc, doc :: rest => listPostsLoop (acc ++ [projectPost (normalize doc)]) rest

/-- src/main.py list_posts, lines 74-87, as a function of the sequence of
documents the store returned: normalize each and project it into the Post
shape, in order.  (The store call itself, get_documents in database.py,
is outside src/; its contract - at most limit documents matching the
filter - is the spec's section 4.1.) -/
def list_posts (docs : List Doc) : List Doc :=
  listPostsLoop [] docs

/-! ## Identifier validation and the single-document handlers -/

/-- Modelled from the documented contract of bson's ObjectId.is_valid on a
string argument: exactly 24 hexadecimal characters.  The bson library is
an external collaborator, not part of this repository. -/
def is_valid_object_id (s : String) : Bool :=
  s.length = 24 && s.toList.all (fun c => c.isDigit || ('a' ≤ c && c ≤ 'f') || ('A' ≤ c && c ≤ 'F'))

/-- The outcome of a handler: a 200 body, or an HTTPException with a
status code and a detail string. -/
inductive Resp where
| ok : Value → Resp
| err : Nat → String → Resp

/-- src/main.py get_post (lines 97-109), instrumented: the Bool records
whether the store (db.post.find_one) was consulted.  The store result is a
parameter: an exception (mapped to 500 by the handler's except clause) or
an optional document.  Python's if-not-doc treats an empty dict like a
missing one. -/
def get_post (findOne : Except String (Option Doc)) (post_id : String) : Resp × Bool :=
  if is_valid_object_id post_id then
    match findOne with
    | Except.error e => (Resp.err 500 e, true)
    | Except.ok none => (Resp.err 404 "Not found", true)
    | Except.ok (some doc) =>
        if doc.isEmpty then (Resp.err 404 "Not found", true)
        else (Resp.ok (Value.vDoc (normalize doc)), true)
  else (Resp.err 400 "Invalid id", false)

/-- src/main.py delete_post (lines 111-123), instrumented like get_post.
The store result is the deleted_count of delete_one, or an exception. -/
def delete_post (deleteOne : Except String Nat) (post_id : String) : Resp × Bool :=
  if is_valid_object_id post_id then
    match deleteOne with
    | Except.error e => (Resp.err 500 e, true)
    | Except.ok n =>
        if n = 0 then (Resp.err 404 "Not found", true)
        else (Resp.ok (Value.vDoc [("status", Value.vStr "deleted")]), true)
  else (Resp.err 400 "Invalid id", false)

/-- src/main.py create_post (lines 89-95).  create_document lives in
database.py, outside src/; per the spec's section 4.1 it returns the newly
assigned identifier as a string or raises, so its outcome is the
parameter. -/
def create_post (insertRes : Except String String) : Resp :=
  match insertRes with
  | Except.ok i => Resp.ok (Value.vDoc [("id", Value.vStr i)])
  | Except.error e => Resp.err 500 e

/-! ## The /test diagnostic endpoint (src/main.py lines 25-43) -/

/-- The status dict /test returns. -/
structure TestStatus where
  backend : String
  database : String
  collections : List String

/-- Python s[:80] on the character level. -/
def pyTruncate (s : String) (n : Nat) : String :=
  String.mk (s.toList.take n)

/-- src/main.py test_database, instrumented: the Bool records whether
list_collection_names was called.  dbConnected models db is not None; the
enumeration's outcome is the parameter.  On an enumeration error the
collections list keeps its initial empty value and the database field
reports the error truncated to 80 characters; the handler never raises. -/
def test_database (dbConnected : Bool) (names : Except String (List String)) : TestStatus × Bool :=
  if dbConnected then
    match names with
    | Except.ok l => (TestStatus.mk "✅ Running" "✅ Connected" (l.take 10), true)
    | Except.error e =>
        (TestStatus.mk "✅ Running" ("⚠️ Connected but error: " ++ pyTruncate e 80) [], true)
  else (TestStatus.mk "✅ Running" "❌ Not Configured" [], false)

/-! ## A heap of dict objects, to state the normalizer's no-mutation
guarantee (dict(doc) copies; only the copy is written). -/

/-- Python dict objects on a heap; an address below next is live. -/
structure Heap where
  mem : Nat → Doc
  next : Nat

def Heap.read (h : Heap) (a : Nat) : Doc := h.mem a

def Heap.alloc (h : Heap) (d : Doc) : Heap × Nat :=
  (Heap.mk (fun x => if x = h.next then d else h.mem x) (h.next + 1), h.next)

def Heap.write (h : Heap) (a : Nat) (d : Doc) : Heap :=
  Heap.mk (fun x => if x = a then d else h.mem x) h.next

/-- src/main.py _normalize again, now at the object level, one Python
statement per step: return the input object itself when it is falsy;
otherwise allocate d = dict(doc) (a copy), rewrite d in place (pop, key
assignment, datetime loop), and return d's address.  The input address is
never written. -/
def normalizeH (h : Heap) (a : Nat) : Heap × Nat :=
  let doc := h.read a
  if doc.isEmpty then (h, a)
  else
    let alloc := h.alloc doc
    let h1 := alloc.1
    let b := alloc.2
    let d0 := h1.read b
    let d1 : Doc :=
      match getVal d0 "_id" with
      | some v => setKey "id" (Value.vStr (pyStr v)) (eraseKey "_id" d0)
      | none => d0
    let d2 := d1.map (fun p => (p.1, convDT p.2))
    (h1.write b d2, b)

/-! ## Dictionary lemmas -/

theorem getVal_map_snd (f : Value → Value) (d : Doc) (k : String) :
    getVal (d.map (fun p => (p.1, f p.2))) k = (getVal d k).map f := by
  induction d with
  | nil => rfl
  | cons p rest ih =>
      by_cases hk : p.1 = k
      · simp [getVal, hk]
      · simp [getVal, hk, ih]

theorem countKey_map_snd (f : Value → Value) (d : Doc) (k : String) :
    countKey k (d.map (fun p => (p.1, f p.2))) = countKey k d := by
  induction d with
  | nil => rfl
  | cons p rest ih => simp [countKey, ih]

theorem getVal_setKey_self (k : String) (v : Value) (d : Doc) :
    getVal (setKey k v d) k = some v := by
  induction d with
  | nil => simp [setKey, getVal]
  | cons p rest ih =>
      by_cases hk : p.1 = k
      · simp [setKey, hk, getVal]
      · simp [setKey, hk, getVal, ih]

theorem getVal_setKey_other (k k' : String) (v : Value) (d : Doc) (hne : k' ≠ k) :
    getVal (setKey k v d) k' = getVal d k' := by
  have hkk : ¬ k = k' := fun h => hne h.symm
  induction d with
  | nil => simp [setKey, getVal, hkk]
  | cons p rest ih =>
      by_cases hk : p.1 = k
      · simp [setKey, hk, getVal, hkk]
      · simp [setKey, hk, getVal, ih]

theorem getVal_eraseKey_other (k k' : String) (d : Doc) (hne : k' ≠ k) :
    getVal (eraseKey k d) k' = getVal d k' := by
  have hkk : ¬ k = k' := fun h => hne h.symm
  induction d with
  | nil => rfl
  | cons p rest ih =>
      by_cases hk : p.1 = k
      · simp [eraseKey, hk, getVal, hkk]
      · simp [eraseKey, hk, getVal, ih]

theorem countKey_eraseKey_self (k : String) (d : Doc) :
    countKey k (eraseKey k d) = countKey k d - 1 := by
  induction d with
  | nil => rfl
  | cons p rest ih =>
      by_cases hk : p.1 = k
      · simp [eraseKey, hk, countKey]
      · simp [eraseKey, hk, countKey, ih]

theorem countKey_setKey_self (k : String) (v : Value) (d : Doc) :
    countKey k (setKey k v d) = max (countKey k d) 1 := by
  induction d with
  | nil => simp [setKey, countKey]
  | cons p rest ih =>
      by_cases hk : p.1 = k
      · simp [setKey, hk, countKey]
      · simp [setKey, hk, countKey, ih]

theorem countKey_eraseKey_other (k k' : String) (d : Doc) (hne : k' ≠ k) :
    countKey k' (eraseKey k d) = countKey k' d := by
  have hkk : ¬ k = k' := fun h => hne h.symm
  induction d with
  | nil => rfl
  | cons p rest ih =>
      by_cases hk : p.1 = k
      · have hp : ¬ p.1 = k' := fun h => hkk (hk.symm.trans h)
        simp [eraseKey, hk, countKey, hp, hkk]
      · simp [eraseKey, hk, countKey, ih]

theorem countKey_setKey_other (k k' : String) (v : Value) (d : Doc) (hne : k' ≠ k) :
    countKey k' (setKey k v d) = countKey k' d := by
  have hkk : ¬ k = k' := fun h => hne h.symm
  induction d with
  | nil => simp [setKey, countKey, hkk]
  | cons p rest ih =>
      by_cases hk : p.1 = k
      · have hp : ¬ p.1 = k' := fun h => hkk (hk.symm.trans h)
        simp [setKey, hk, countKey, hkk, hp]
      · simp [setKey, hk, countKey, ih]

theorem countKey_eq_zero_of_not_mem (k : String) (d : Doc)
    (h : k ∉ d.map Prod.fst) : countKey k d = 0 := by
  induction d with
  | nil => rfl
  | cons p rest ih =>
      rw [List.map_cons, List.mem_cons] at h
      push_neg at h
      have hk : ¬ p.1 = k := fun hh => h.1 hh.symm
      simp [countKey, hk, ih h.2]

theorem getVal_eq_none_of_countKey_zero (k : String) (d : Doc)
    (h : countKey k d = 0) : getVal d k = none := by
  induction d with
  | nil => rfl
  | cons p rest ih =>
      by_cases hk : p.1 = k
      · simp [countKey, hk] at h
      · simp [countKey, hk] at h
        simp [getVal, hk, ih h]

theorem countKey_pos_of_getVal_some (k : String) (d : Doc) (v : Value)
    (h : getVal d k = some v) : 1 ≤ countKey k d := by
  induction d with
  | nil => simp [getVal] at h
  | cons p rest ih =>
      by_cases hk : p.1 = k
      · simp [countKey, hk]
      · simp [getVal, hk] at h
        simp [countKey, hk]
        exact ih h

theorem nodupKeys_countKey_le_one (d : Doc) (h : NodupKeys d) (k : String) :
    countKey k d ≤ 1 := by
  induction d with
  | nil => simp [countKey]
  | cons p rest ih =>
      rw [NodupKeys, List.map_cons, List.nodup_cons] at h
      by_cases hk : p.1 = k
      · have hz : countKey k rest = 0 :=
          countKey_eq_zero_of_not_mem k rest (hk ▸ h.1)
        simp [countKey, hk, hz]
      · simp [countKey, hk]
        exact ih h.2

/-! ## Normalizer lemmas -/

/-- The renamed-but-not-yet-datetime-converted dict d1 of normalize. -/
def renameStep (doc : Doc) : Doc :=
  match getVal doc "_id" with
  | some v => setKey "id" (Value.vStr (pyStr v)) (eraseKey "_id" doc)
  | none => doc

theorem normalize_cons (p : String × Value) (rest : Doc) :
    normalize (p :: rest) = (renameStep (p :: rest)).map (fun q => (q.1, convDT q.2)) := rfl

theorem normalize_no_reserved (doc : Doc) (h : countKey "_id" doc ≤ 1) :
    getVal (normalize doc) "_id" = none := by
  cases doc with
  | nil => rfl
  | cons p rest =>
      rw [normalize_cons, getVal_map_snd]
      cases hid : getVal (p :: rest) "_id" with
      | none => simp [renameStep, hid]
      | some v =>
          have h1 : 1 ≤ countKey "_id" (p :: rest) :=
            countKey_pos_of_getVal_some _ _ _ hid
          have h0 : countKey "_id" (eraseKey "_id" (p :: rest)) = 0 := by
            rw [countKey_eraseKey_self]
            omega
          simp only [renameStep, hid]
          rw [getVal_setKey_other "id" "_id" _ _ (by decide)]
          rw [getVal_eq_none_of_countKey_zero _ _ h0]
          rfl

theorem normalize_getVal_id (doc : Doc) (v : Value)
    (h_id : getVal doc "_id" = some v) :
    getVal (normalize doc) "id" = some (Value.vStr (pyStr v)) := by
  cases doc with
  | nil => simp [getVal] at h_id
  | cons p rest =>
      rw [normalize_cons, getVal_map_snd]
      simp only [renameStep, h_id]
      rw [getVal_setKey_self]
      rfl

theorem normalize_countKey_id (doc : Doc) (v : Value)
    (h_id : getVal doc "_id" = some v) (h1 : countKey "id" doc ≤ 1) :
    countKey "id" (normalize doc) = 1 := by
  cases doc with
  | nil => simp [getVal] at h_id
  | cons p rest =>
      rw [normalize_cons, countKey_map_snd]
      simp only [renameStep, h_id]
      rw [countKey_setKey_self]
      have h2 : countKey "id" (eraseKey "_id" (p :: rest)) = countKey "id" (p :: rest) :=
        countKey_eraseKey_other _ _ _ (by decide)
      omega

theorem normalize_getVal_other (doc : Doc) (k : String)
    (hk1 : k ≠ "_id") (hk2 : k ≠ "id") :
    getVal (normalize doc) k = (getVal doc k).map convDT := by
  cases doc with
  | nil => rfl
  | cons p rest =>
      rw [normalize_cons, getVal_map_snd]
      cases hid : getVal (p :: rest) "_id" with
      | none => simp only [renameStep, hid]
      | some v =>
          simp only [renameStep, hid]
          rw [getVal_setKey_other _ _ _ _ hk2, getVal_eraseKey_other _ _ _ hk1]

/-! ## Loop and query-builder lemmas -/

theorem listPostsLoop_eq (docs acc : List Doc) :
    listPostsLoop acc docs = acc ++ docs.map (fun d => projectPost (normalize d)) := by
  induction docs generalizing acc with
  | nil => simp [listPostsLoop]
  | cons d rest ih => simp [listPostsLoop, ih]

theorem list_posts_eq_map (docs : List Doc) :
    list_posts docs = docs.map (fun d => projectPost (normalize d)) := by
  rw [list_posts, listPostsLoop_eq]
  rfl

theorem projectPost_no_reserved (nd : Doc) : getVal (projectPost nd) "_id" = none := by
  simp [projectPost, getVal]

theorem regexCond_i_eq_fieldContains (q : String) (d : Doc) (fld : String) :
    (match getVal d fld with
     | some v => regexCondMatches (RegexCond.mk q "i") v
     | none => false) = fieldContainsCI d fld q := by
  cases h : getVal d fld with
  | none => simp [fieldContainsCI, h]
  | some v => cases v <;> simp [fieldContainsCI, h, regexCondMatches]

/-! ## Claim theorems -/

/-- Claim C1: for every stored document (distinct keys, as Python dicts
guarantee), the normalizer output never contains the reserved key under
its original name, and whenever the reserved key is present exactly one
id field is produced, holding its string form; the list endpoint's
projected Post objects likewise never contain the reserved key. -/
theorem c1_reserved_key_never_exposed :
    (∀ doc : Doc, NodupKeys doc →
        getVal (normalize doc) "_id" = none
        ∧ ∀ v : Value, getVal doc "_id" = some v →
            countKey "id" (normalize doc) = 1
            ∧ getVal (normalize doc) "id" = some (Value.vStr (pyStr v)))
    ∧ (∀ docs : List Doc, ∀ p ∈ list_posts docs, getVal p "_id" = none) := by
  constructor
  · intro doc hnd
    refine ⟨normalize_no_reserved doc (nodupKeys_countKey_le_one doc hnd "_id"), ?_⟩
    intro v hv
    exact ⟨normalize_countKey_id doc v hv (nodupKeys_countKey_le_one doc hnd "id"),
           normalize_getVal_id doc v hv⟩
  · intro docs p hp
    rw [list_posts_eq_map] at hp
    obtain ⟨d, hd, rfl⟩ := List.mem_map.mp hp
    exact projectPost_no_reserved _

def c1demo : Doc := [("_id", Value.vObjectId "656361fe14b71a0a88ccba0b"), ("title", Value.vStr "x")]

/-- Concrete instance of C1: a two-field stored document. -/
theorem c1_reserved_key_never_exposed_witness :
    getVal (normalize c1demo) "_id" = none ∧ countKey "id" (normalize c1demo) = 1 :=
  ⟨(c1_reserved_key_never_exposed.1 c1demo (by decide)).1,
   ((c1_reserved_key_never_exposed.1 c1demo (by decide)).2
      (Value.vObjectId "656361fe14b71a0a88ccba0b") rfl).1⟩

/-- Claim C2: an absent or empty q yields the match-all filter; a
non-empty q yields the or-filter whose four per-field patterns are q
verbatim (unescaped) with the case-insensitive option, and under the
modelled substring reading of regex conditions that filter matches a
document exactly when one of title, region, excerpt, tags contains q as
a case-insensitive substring. -/
theorem c2_query_builder_substring_or :
    build_filter none = QueryFilter.all
    ∧ build_filter (some "") = QueryFilter.all
    ∧ ∀ q : String, q ≠ "" →
        build_filter (some q) = QueryFilter.orRegex
          [("title", RegexCond.mk q "i"), ("region", RegexCond.mk q "i"),
           ("excerpt", RegexCond.mk q "i"), ("tags", RegexCond.mk q "i")]
        ∧ ∀ d : Doc, evalFilter (build_filter (some q)) d = specSearchMatches q d := by
  refine ⟨rfl, rfl, ?_⟩
  intro q hq
  have hb : build_filter (some q) = QueryFilter.orRegex
      [("title", RegexCond.mk q "i"), ("region", RegexCond.mk q "i"),
       ("excerpt", RegexCond.mk q "i"), ("tags", RegexCond.mk q "i")] := by
    simp [build_filter, hq, searchFields]
  refine ⟨hb, ?_⟩
  intro d
  rw [hb]
  simp only [evalFilter, List.any_cons, List.any_nil]
  simp only [regexCond_i_eq_fieldContains]
  simp [specSearchMatches, Bool.or_assoc]

def c2demo : Doc := [("title", Value.vStr "Global Markets Shift")]

/-- Concrete instance of C2: the query markets matches a stored title
Global Markets Shift case-insensitively. -/
theorem c2_query_builder_substring_or_witness :
    ("markets" : String) ≠ ""
    ∧ evalFilter (build_filter (some "markets")) c2demo = specSearchMatches "markets" c2demo
    ∧ specSearchMatches "markets" c2demo = true :=
  ⟨by decide,
   (c2_query_builder_substring_or.2.2 "markets" (by decide)).2 c2demo,
   by decide⟩

/-- Claim C3: the list endpoint maps the store result in order into
Post-shaped records, defaulting title, region and excerpt to the empty
string, tags and content to the empty sequence, passing date through
(absent becomes null), and returns the empty sequence on an empty result. -/
theorem c3_list_endpoint_projection :
    list_posts [] = []
    ∧ (∀ docs : List Doc, list_posts docs = docs.map (fun doc => projectPost (normalize doc)))
    ∧ (∀ nd : Doc,
        getVal (projectPost nd) "title" = some (getD nd "title" (Value.vStr ""))
        ∧ getVal (projectPost nd) "region" = some (getD nd "region" (Value.vStr ""))
        ∧ getVal (projectPost nd) "excerpt" = some (getD nd "excerpt" (Value.vStr ""))
        ∧ getVal (projectPost nd) "date" = some (optValue (getVal nd "date"))
        ∧ getVal (projectPost nd) "tags" = some (getD nd "tags" (Value.vList []))
        ∧ getVal (projectPost nd) "content" = some (getD nd "content" (Value.vList [])))
    ∧ (∀ nd : Doc, getVal nd "tags" = none → getVal (projectPost nd) "tags" = some (Value.vList []))
    ∧ (∀ nd : Doc, getVal nd "date" = none → getVal (projectPost nd) "date" = some Value.vNull) := by
  refine ⟨rfl, list_posts_eq_map, ?_, ?_, ?_⟩
  · intro nd
    exact ⟨rfl, rfl, rfl, rfl, rfl, rfl⟩
  · intro nd h
    simp [projectPost, getVal, getD, h]
  · intro nd h
    simp [projectPost, getVal, optValue, h]

def c3demo : Doc := [("title", Value.vStr "A")]

/-- Concrete instance of C3: a document with no tags and no date is
projected with empty tags and a null date. -/
theorem c3_list_endpoint_projection_witness :
    getVal (projectPost c3demo) "tags" = some (Value.vList [])
    ∧ getVal (projectPost c3demo) "date" = some Value.vNull :=
  ⟨c3_list_endpoint_projection.2.2.2.1 c3demo rfl,
   c3_list_endpoint_projection.2.2.2.2 c3demo rfl⟩

/-- Claim C6: POST api-posts returns the new identifier as an id field on
success and maps any store failure to a 500 carrying the failure message. -/
theorem c6_create_post_maps_insert :
    (∀ s : String, create_post (Except.ok s) = Resp.ok (Value.vDoc [("id", Value.vStr s)]))
    ∧ (∀ e : String, create_post (Except.error e) = Resp.err 500 e) :=
  ⟨fun _ => rfl, fun _ => rfl⟩

/-- Claim C7: the test endpoint always returns a plain body (its result
type has no HTTP-error alternative): an unavailable handle reports Not
Configured without a store call, an enumeration failure is reported
inside the body truncated to at most 80 characters, and on success at
most 10 collection names are reported. -/
theorem c7_test_endpoint_never_http_error :
    (∀ names : Except String (List String),
        test_database false names = (TestStatus.mk "✅ Running" "❌ Not Configured" [], false))
    ∧ (∀ e : String,
        test_database true (Except.error e) =
          (TestStatus.mk "✅ Running" ("⚠️ Connected but error: " ++ pyTruncate e 80) [], true)
        ∧ (pyTruncate e 80).length ≤ 80)
    ∧ (∀ l : List String,
        test_database true (Except.ok l) =
          (TestStatus.mk "✅ Running" "✅ Connected" (l.take 10), true)
        ∧ (l.take 10).length ≤ 10) := by
  refine ⟨fun _ => rfl, fun e => ⟨rfl, ?_⟩, fun l => ⟨rfl, ?_⟩⟩
  · show (List.take 80 e.toList).length ≤ 80
    rw [List.length_take]
    omega
  · rw [List.length_take]
    omega

/-- Claim C4: the single-document GET responds 400 without consulting the
store on a malformed identifier, 404 when a well-formed identifier
matches nothing, and otherwise 200 with the normalized full stored
document; every field other than the reserved and public identifier keys
passes through normalization (datetime values become their ISO strings,
everything else is untouched). -/
theorem c4_get_post_status_mapping :
    ∀ (findOne : Except String (Option Doc)) (pid : String),
      (is_valid_object_id pid = false → get_post findOne pid = (Resp.err 400 "Invalid id", false))
      ∧ (is_valid_object_id pid = true → findOne = Except.ok none →
          get_post findOne pid = (Resp.err 404 "Not found", true))
      ∧ (∀ doc : Doc, is_valid_object_id pid = true → findOne = Except.ok (some doc) → doc ≠ [] →
          get_post findOne pid = (Resp.ok (Value.vDoc (normalize doc)), true))
      ∧ (∀ (doc : Doc) (k : String), k ≠ "_id" → k ≠ "id" →
          getVal (normalize doc) k = (getVal doc k).map convDT) := by
  intro findOne pid
  refine ⟨?_, ?_, ?_, fun doc k h1 h2 => normalize_getVal_other doc k h1 h2⟩
  · intro h
    simp [get_post, h]
  · intro h1 h2
    subst h2
    simp [get_post, h1]
  · intro doc h1 h2 h3
    subst h2
    have he : doc.isEmpty = false := by
      cases doc with
      | nil => exact absurd rfl h3
      | cons a b => rfl
    simp [get_post, h1, he]

def c4docA : Doc := [("_id", Value.vObjectId "0123456789abcdef01234567"), ("extra", Value.vStr "kept")]

/-- Concrete instances of C4: malformed id, missing document, found
document with an extra field. -/
theorem c4_get_post_status_mapping_witness :
    get_post (Except.ok none) "not-an-id" = (Resp.err 400 "Invalid id", false)
    ∧ get_post (Except.ok none) "0123456789abcdef01234567" = (Resp.err 404 "Not found", true)
    ∧ get_post (Except.ok (some c4docA)) "0123456789abcdef01234567"
        = (Resp.ok (Value.vDoc (normalize c4docA)), true) :=
  ⟨(c4_get_post_status_mapping (Except.ok none) "not-an-id").1 (by decide),
   (c4_get_post_status_mapping (Except.ok none) "0123456789abcdef01234567").2.1 (by decide) rfl,
   (c4_get_post_status_mapping (Except.ok (some c4docA)) "0123456789abcdef01234567").2.2.1
      c4docA (by decide) rfl (List.cons_ne_nil _ _)⟩

/-- Claim C5: the delete handler responds 400 without consulting the
store on a malformed identifier, 404 when the delete removed zero
documents, and 200 with a status-deleted body when it removed one. -/
theorem c5_delete_post_status_mapping :
    ∀ (deleteOne : Except String Nat) (pid : String),
      (is_valid_object_id pid = false → delete_post deleteOne pid = (Resp.err 400 "Invalid id", false))
      ∧ (is_valid_object_id pid = true → deleteOne = Except.ok 0 →
          delete_post deleteOne pid = (Resp.err 404 "Not found", true))
      ∧ (∀ n : Nat, is_valid_object_id pid = true → deleteOne = Except.ok n → n ≠ 0 →
          delete_post deleteOne pid = (Resp.ok (Value.vDoc [("status", Value.vStr "deleted")]), true)) := by
  intro deleteOne pid
  refine ⟨?_, ?_, ?_⟩
  · intro h
    simp [delete_post, h]
  · intro h1 h2
    subst h2
    simp [delete_post, h1]
  · intro n h1 h2 h3
    subst h2
    simp [delete_post, h1, h3]

/-- Concrete instances of C5: malformed id, zero deletions, one deletion. -/
theorem c5_delete_post_status_mapping_witness :
    delete_post (Except.ok 0) "not-an-id" = (Resp.err 400 "Invalid id", false)
    ∧ delete_post (Except.ok 0) "0123456789abcdef01234567" = (Resp.err 404 "Not found", true)
    ∧ delete_post (Except.ok 1) "0123456789abcdef01234567"
        = (Resp.ok (Value.vDoc [("status", Value.vStr "deleted")]), true) :=
  ⟨(c5_delete_post_status_mapping (Except.ok 0) "not-an-id").1 (by decide),
   (c5_delete_post_status_mapping (Except.ok 0) "0123456789abcdef01234567").2.1 (by decide) rfl,
   (c5_delete_post_status_mapping (Except.ok 1) "0123456789abcdef01234567").2.2 1 (by decide) rfl (by decide)⟩

/-- Claim C8: at the object level the normalizer never writes the input
dict: the input address holds the same entries afterwards; a falsy input
is returned as-is (same heap, same object); a non-empty input yields a
freshly allocated object holding the normalized copy. -/
theorem c8_normalizer_no_mutation :
    ∀ (h : Heap) (a : Nat), a < h.next →
      ((normalizeH h a).1.read a = h.read a)
      ∧ (h.read a = [] → normalizeH h a = (h, a))
      ∧ (h.read a ≠ [] →
          (normalizeH h a).2 = h.next
          ∧ (normalizeH h a).1.read ((normalizeH h a).2) = normalize (h.read a)) := by
  intro h a ha
  have hne : ¬ a = h.next := Nat.ne_of_lt ha
  cases hl : h.read a with
  | nil =>
      refine ⟨?_, fun _ => ?_, fun hn => absurd rfl hn⟩
      · simp [normalizeH, hl]
      · simp [normalizeH, hl]
  | cons p rest =>
      have hm : h.mem a = p :: rest := hl
      refine ⟨?_, fun hn => absurd hn (List.cons_ne_nil p rest), fun _ => ⟨?_, ?_⟩⟩
      · simp [normalizeH, hl, hm, Heap.read, Heap.alloc, Heap.write, hne]
      · simp [normalizeH, hl, hm, Heap.read, Heap.alloc, Heap.write]
      · simp [normalizeH, hl, hm, Heap.read, Heap.alloc, Heap.write, normalize_cons, renameStep]

def c8heap : Heap := Heap.mk (fun _ => [("_id", Value.vObjectId "0123456789abcdef01234567")]) 1

/-- Concrete instance of C8: the input object at address 0 is unchanged
and the result lives at the fresh address 1. -/
theorem c8_normalizer_no_mutation_witness :
    (normalizeH c8heap 0).1.read 0 = c8heap.read 0 ∧ (normalizeH c8heap 0).2 = 1 :=
  ⟨(c8_normalizer_no_mutation c8heap 0 (by decide)).1,
   ((c8_normalizer_no_mutation c8heap 0 (by decide)).2.2 (List.cons_ne_nil _ _)).1⟩

/-- Claim C9: when a stored document carries both the reserved key and a
pre-existing id field, the normalizer output holds the string form of
the reserved value under id, and only that (the original id value is
discarded). -/
theorem c9_preexisting_id_discarded :
    ∀ (doc : Doc) (v w : Value), NodupKeys doc →
      getVal doc "_id" = some v → getVal doc "id" = some w →
      getVal (normalize doc) "id" = some (Value.vStr (pyStr v))
      ∧ countKey "id" (normalize doc) = 1 := by
  intro doc v w hnd hv _
  exact ⟨normalize_getVal_id doc v hv,
         normalize_countKey_id doc v hv (nodupKeys_countKey_le_one doc hnd "id")⟩

def c9demo : Doc := [("id", Value.vStr "old"), ("_id", Value.vObjectId "0123456789abcdef01234567")]

/-- Concrete instance of C9: the old id value is replaced by the string
form of the reserved identifier. -/
theorem c9_preexisting_id_discarded_witness :
    getVal (normalize c9demo) "id" = some (Value.vStr "0123456789abcdef01234567")
    ∧ countKey "id" (normalize c9demo) = 1 :=
  c9_preexisting_id_discarded c9demo (Value.vObjectId "0123456789abcdef01234567")
    (Value.vStr "old") (by decide) rfl rfl

/-- Claim C10: timestamp conversion is top-level only: a field holding a
list or a sub-document passes through the normalizer unchanged (even
when a timestamp sits inside it), while a top-level timestamp field is
converted to its ISO string. -/
theorem c10_nested_timestamps_pass_through :
    ∀ (doc : Doc) (k : String), k ≠ "_id" → k ≠ "id" →
      (∀ l : List Value, getVal doc k = some (Value.vList l) →
          getVal (normalize doc) k = some (Value.vList l))
      ∧ (∀ m : List (String × Value), getVal doc k = some (Value.vDoc m) →
          getVal (normalize doc) k = some (Value.vDoc m))
      ∧ (∀ iso : String, getVal doc k = some (Value.vDateTime iso) →
          getVal (normalize doc) k = some (Value.vStr iso)) := by
  intro doc k h1 h2
  refine ⟨?_, ?_, ?_⟩ <;> intro x hx <;> rw [normalize_getVal_other doc k h1 h2, hx] <;> rfl

def c10demo : Doc :=
  [("_id", Value.vObjectId "0aaaaaaaaaaaaaaaaaaaaaa1"),
   ("content", Value.vList [Value.vDateTime "2024-05-01T00:00:00"]),
   ("date", Value.vDateTime "2024-05-02T00:00:00")]

/-- Concrete instance of C10: a timestamp inside the content list is not
converted while the top-level date timestamp is. -/
theorem c10_nested_timestamps_pass_through_witness :
    getVal (normalize c10demo) "content" = some (Value.vList [Value.vDateTime "2024-05-01T00:00:00"])
    ∧ getVal (normalize c10demo) "date" = some (Value.vStr "2024-05-02T00:00:00") :=
  ⟨(c10_nested_timestamps_pass_through c10demo "content" (by decide) (by decide)).1 _ rfl,
   (c10_nested_timestamps_pass_through c10demo "date" (by decide) (by decide)).2.2 _ rfl⟩

end TFD
